import Mathlib

/-!
Verification development for the grafana dashboard snapshot tool.

The repository consists of a CLI (`main.go`, two revisions) and a `snapshot`
package (`processConfig` / `processTakeConfig` validators, and a `SnapClient`
whose `Take` method fetches a dashboard, substitutes template variables,
walks the panel tree, queries each panel's datasource through the Grafana
proxy, and re-embeds the results as `snapshotData` while blanking the
live-query fields).

This file gives a shallow embedding of that logic:
* pure Go functions become Lean functions over explicit data models;
* `*url.URL` pointer mutation in `processConfig` is made observable by
  returning, next to the output config, the input config as it can be
  observed after the call (the two `url.URL` fields are modelled as
  distinct objects, as in the package's own tests);
* network I/O (the Prometheus range query) is a parameter ("oracle")
  of the panel-traversal functions;
* Go `float64` sample values are modelled by an inductive that separates
  finite values, NaN and the infinities, since the code only ever
  discriminates on NaN-ness and passes values through;
* Go strings are modelled by Lean `String` / `List Char` (byte vs rune
  distinctions do not matter for the properties below).
-/

deriving instance DecidableEq for Except

namespace snapshot

/-- Go `strings.HasSuffix s suf`. -/
def goHasSuffix (s suf : String) : Bool := decide (suf.data <:+ s.data)

/-- Go `strings.Contains s sub`. -/
def goContains (s sub : String) : Bool := decide (sub.data <:+: s.data)

/-- The trailing-slash normalization applied to URL paths:
`if !strings.HasSuffix(path, "/") { path = path + "/" }`. -/
def ensureSlash (p : String) : String := if goHasSuffix p "/" then p else p ++ "/"

/-- Model of Go `net/url.URL`, restricted to the components this program
reads or writes (`Path` is the only mutated component). -/
structure GoURL where
  scheme : String
  host : String
  path : String
deriving DecidableEq, Repr

/-- Model of `url.URL.String()` for the URLs this program handles: the
zero URL renders as the empty string, any other URL as
`scheme://host` followed by the path. -/
def urlString (u : GoURL) : String :=
  (if u.scheme = "" ∧ u.host = "" then "" else u.scheme ++ "://" ++ u.host) ++ u.path

/-- `snapshot.Config`. The two `*url.URL` fields are `Option`s: `none`
models a nil pointer. -/
structure Config where
  GrafanaAPIKey : String
  SnapshotAPIKey : String
  GrafanaAddr : Option GoURL
  SnapshotAddr : Option GoURL
deriving DecidableEq, Repr

/-- `snapshot.processConfig`.  In Go the function copies the `*url.URL`
pointers into the output config and then normalizes the pointed-to
`Path` in place, so the caller's URL objects are mutated.  To make that
observable the embedding returns, on success, the pair
`(configOut, configIn-as-observable-after-the-call)`.
The model treats the two input URL fields as distinct objects
(as in the package's own tests). -/
def processConfig (cIn : Config) : Except String (Config × Config) :=
  match cIn.GrafanaAddr with
  | none => .error "Missing required Config field: GrafanaAddr"
  | some g =>
    if urlString g = "" then .error "Missing required Config field: GrafanaAddr" else
    -- trailing-slash normalization, in place on the shared URL object
    let g' : GoURL := { g with path := ensureSlash g.path }
    if cIn.GrafanaAPIKey = "" then .error "Missing required Config field: GrafanaAPIKey" else
    let outKey : String :=
      if cIn.SnapshotAPIKey = "" then cIn.GrafanaAPIKey else cIn.SnapshotAPIKey
    match cIn.SnapshotAddr with
    | none =>
      -- SnapshotAddr defaults to the (already normalized) Grafana URL object;
      -- its path already ends in "/" so the second normalization is a no-op.
      .ok ({ GrafanaAPIKey := cIn.GrafanaAPIKey, SnapshotAPIKey := outKey,
             GrafanaAddr := some g', SnapshotAddr := some g' },
           { cIn with GrafanaAddr := some g' })
    | some s =>
      if urlString s = "" then
        .ok ({ GrafanaAPIKey := cIn.GrafanaAPIKey, SnapshotAPIKey := outKey,
               GrafanaAddr := some g', SnapshotAddr := some g' },
             { cIn with GrafanaAddr := some g' })
      else
        let s' : GoURL := { s with path := ensureSlash s.path }
        .ok ({ GrafanaAPIKey := cIn.GrafanaAPIKey, SnapshotAPIKey := outKey,
               GrafanaAddr := some g', SnapshotAddr := some s' },
             { cIn with GrafanaAddr := some g', SnapshotAddr := some s' })

theorem ensureSlash_hasSuffix (p : String) : goHasSuffix (ensureSlash p) "/" = true := by
  unfold ensureSlash
  by_cases h : goHasSuffix p "/" = true
  · rw [if_pos h]; exact h
  · rw [if_neg h]
    unfold goHasSuffix
    simp only [decide_eq_true_eq, String.data_append]
    exact List.suffix_append p.data "/".data

theorem ensureSlash_idem (p : String) (h : goHasSuffix p "/" = true) : ensureSlash p = p := by
  unfold ensureSlash
  simp [h]

theorem urlString_hasSuffix (u : GoURL) (h : goHasSuffix u.path "/" = true) :
    goHasSuffix (urlString u) "/" = true := by
  unfold goHasSuffix at h ⊢
  simp at h ⊢
  obtain ⟨t, ht⟩ := h
  unfold urlString
  refine ⟨(if u.scheme = "" ∧ u.host = "" then "" else u.scheme ++ "://" ++ u.host).data ++ t, ?_⟩
  simp [← ht]

theorem urlString_ne_empty_of_slash (u : GoURL) (h : goHasSuffix u.path "/" = true) :
    urlString u ≠ "" := by
  have hs := urlString_hasSuffix u h
  intro he
  rw [he] at hs
  unfold goHasSuffix at hs
  simp at hs

/-- Claim C3: `processConfig` fails iff the Grafana base URL is absent or
renders empty, or the Grafana API key is empty; on success both returned
base URLs end with a trailing `/`, the snapshot base URL defaults to the
Grafana base URL when unset, and the snapshot API key defaults to the
Grafana API key when unset. -/
theorem c3_processConfig_validation :
    (∀ c : Config, (∃ e, processConfig c = .error e) ↔
        (c.GrafanaAddr = none ∨ (∃ g, c.GrafanaAddr = some g ∧ urlString g = "") ∨
          c.GrafanaAPIKey = "")) ∧
    (∀ c out after, processConfig c = .ok (out, after) →
        (∃ g, out.GrafanaAddr = some g ∧ goHasSuffix (urlString g) "/" = true) ∧
        (∃ s, out.SnapshotAddr = some s ∧ goHasSuffix (urlString s) "/" = true) ∧
        ((c.SnapshotAddr = none ∨ (∃ s0, c.SnapshotAddr = some s0 ∧ urlString s0 = "")) →
            out.SnapshotAddr = out.GrafanaAddr) ∧
        (c.SnapshotAPIKey = "" → out.SnapshotAPIKey = c.GrafanaAPIKey) ∧
        out.GrafanaAPIKey = c.GrafanaAPIKey) := by
  constructor
  · intro c
    constructor
    · rintro ⟨e, he⟩
      unfold processConfig at he
      cases hga : c.GrafanaAddr with
      | none => exact Or.inl rfl
      | some g =>
        rw [hga] at he
        simp only at he
        by_cases hge : urlString g = ""
        · exact Or.inr (Or.inl ⟨g, rfl, hge⟩)
        · rw [if_neg hge] at he
          by_cases hk : c.GrafanaAPIKey = ""
          · exact Or.inr (Or.inr hk)
          · rw [if_neg hk] at he
            cases hsa : c.SnapshotAddr with
            | none => rw [hsa] at he; simp at he
            | some s =>
              rw [hsa] at he
              by_cases hse : urlString s = ""
              · simp [hse] at he
              · simp [hse] at he
    · intro h
      unfold processConfig
      rcases h with h | ⟨g, hg, hge⟩ | hk
      · rw [h]; exact ⟨_, rfl⟩
      · rw [hg]; simp [hge]
      · cases hga : c.GrafanaAddr with
        | none => exact ⟨_, rfl⟩
        | some g =>
          simp only
          by_cases hge : urlString g = ""
          · simp [hge]
          · rw [if_neg hge, if_pos hk]; exact ⟨_, rfl⟩
  · intro c out after h
    unfold processConfig at h
    cases hga : c.GrafanaAddr with
    | none => rw [hga] at h; exact absurd h (by simp)
    | some g =>
      rw [hga] at h
      simp only at h
      by_cases hge : urlString g = ""
      · simp [hge] at h
      · rw [if_neg hge] at h
        by_cases hk : c.GrafanaAPIKey = ""
        · simp [hk] at h
        · rw [if_neg hk] at h
          have hgood : goHasSuffix (ensureSlash g.path) "/" = true := ensureSlash_hasSuffix g.path
          cases hsa : c.SnapshotAddr with
          | none =>
            rw [hsa] at h
            simp only at h
            simp only [Except.ok.injEq, Prod.mk.injEq] at h
            obtain ⟨hout, _hafter⟩ := h
            subst hout
            refine ⟨⟨_, rfl, urlString_hasSuffix _ hgood⟩,
                    ⟨_, rfl, urlString_hasSuffix _ hgood⟩, fun _ => rfl, fun hks => ?_, rfl⟩
            simp [hks]
          | some s =>
            rw [hsa] at h
            simp only at h
            by_cases hse : urlString s = ""
            · rw [if_pos hse] at h
              simp only [Except.ok.injEq, Prod.mk.injEq] at h
              obtain ⟨hout, _hafter⟩ := h
              subst hout
              refine ⟨⟨_, rfl, urlString_hasSuffix _ hgood⟩,
                      ⟨_, rfl, urlString_hasSuffix _ hgood⟩, fun _ => rfl, fun hks => ?_, rfl⟩
              simp [hks]
            · rw [if_neg hse] at h
              simp only [Except.ok.injEq, Prod.mk.injEq] at h
              obtain ⟨hout, _hafter⟩ := h
              subst hout
              refine ⟨⟨_, rfl, urlString_hasSuffix _ hgood⟩,
                      ⟨_, rfl, urlString_hasSuffix _ (ensureSlash_hasSuffix s.path)⟩,
                      ?_, fun hks => ?_, rfl⟩
              · rintro (hnone | ⟨s0, hs0, hs0e⟩)
                · exact absurd hnone (by simp)
                · injection hs0 with hs0
                  subst hs0
                  exact absurd hs0e hse
              · simp [hks]

/-- Concrete input for the C3 and C10 witnesses: grafana URL
`https://g.example/` with API key `"k"` and unset snapshot fields. -/
def cfgExample : Config :=
  { GrafanaAPIKey := "k", SnapshotAPIKey := "",
    GrafanaAddr := some ⟨"https", "g.example", "/"⟩, SnapshotAddr := none }

/-- The config `processConfig` returns for `cfgExample`. -/
def outExample : Config :=
  { GrafanaAPIKey := "k", SnapshotAPIKey := "k",
    GrafanaAddr := some ⟨"https", "g.example", "/"⟩,
    SnapshotAddr := some ⟨"https", "g.example", "/"⟩ }

/-- Witness for C3 at the spec's own example. -/
theorem c3_processConfig_validation_witness :
    outExample.SnapshotAddr = outExample.GrafanaAddr ∧
    outExample.SnapshotAPIKey = cfgExample.GrafanaAPIKey := by
  have h : processConfig cfgExample = .ok (outExample, cfgExample) := by decide
  have hc := c3_processConfig_validation.2 cfgExample outExample cfgExample h
  exact ⟨hc.2.2.1 (Or.inl rfl), hc.2.2.2.1 rfl⟩

/-- The concrete config used for the C9 counterexample: its Grafana URL
path does not end in a slash. -/
def cfgNoSlash : Config :=
  { GrafanaAPIKey := "k", SnapshotAPIKey := "",
    GrafanaAddr := some ⟨"https", "g.example", ""⟩, SnapshotAddr := none }

/-- Claim C9 counterexample: `processConfig` mutates the `url.URL` object
shared between its argument and its result: running it on a config whose
Grafana URL path is `""`, the input config observed after the call has
path `"/"`, hence differs from the input observed before the call. -/
theorem c9_counterexample :
    processConfig cfgNoSlash =
      .ok ({ GrafanaAPIKey := "k", SnapshotAPIKey := "k",
             GrafanaAddr := some ⟨"https", "g.example", "/"⟩,
             SnapshotAddr := some ⟨"https", "g.example", "/"⟩ },
           { GrafanaAPIKey := "k", SnapshotAPIKey := "",
             GrafanaAddr := some ⟨"https", "g.example", "/"⟩,
             SnapshotAddr := none }) ∧
    ({ GrafanaAPIKey := "k", SnapshotAPIKey := "",
       GrafanaAddr := some ⟨"https", "g.example", "/"⟩,
       SnapshotAddr := none } : Config) ≠ cfgNoSlash := by
  constructor
  · decide
  · decide

/-- Claim C9 (amended): `processConfig` does not reassign its argument's
fields, but the trailing-slash normalization mutates the pointed-to URL
objects in place.  After a successful call the argument's Grafana URL
path is its old path with a `/` appended when absent; the snapshot URL is
normalized the same way when it was set and non-empty, and untouched
otherwise; the key fields are never changed.  When both input paths
already end in `/`, the argument is observed unchanged. -/
theorem c9_mutation_characterized :
    ∀ c out after, processConfig c = .ok (out, after) →
      after.GrafanaAPIKey = c.GrafanaAPIKey ∧
      after.SnapshotAPIKey = c.SnapshotAPIKey ∧
      (∀ g, c.GrafanaAddr = some g →
          after.GrafanaAddr = some { g with path := ensureSlash g.path }) ∧
      (c.SnapshotAddr = none → after.SnapshotAddr = none) ∧
      (∀ s, c.SnapshotAddr = some s → urlString s = "" → after.SnapshotAddr = some s) ∧
      (∀ s, c.SnapshotAddr = some s → urlString s ≠ "" →
          after.SnapshotAddr = some { s with path := ensureSlash s.path }) ∧
      ((∀ g, c.GrafanaAddr = some g → goHasSuffix g.path "/" = true) →
       (∀ s, c.SnapshotAddr = some s → goHasSuffix s.path "/" = true) →
       after = c) := by
  rintro ⟨a, b, ga, sa⟩ out after h
  unfold processConfig at h
  cases ga with
  | none => exact absurd h (by simp)
  | some g =>
    simp only at h
    by_cases hge : urlString g = ""
    · simp [hge] at h
    · rw [if_neg hge] at h
      by_cases hk : a = ""
      · rw [if_pos hk] at h
        exact absurd h (by simp)
      · rw [if_neg hk] at h
        cases sa with
        | none =>
          simp only [Except.ok.injEq, Prod.mk.injEq] at h
          obtain ⟨_hout, hafter⟩ := h
          subst hafter
          refine ⟨rfl, rfl, ?_, fun _ => rfl, ?_, ?_, ?_⟩
          · intro g0 hg0
            injection hg0 with hg0
            subst hg0
            rfl
          · intro s hs
            exact absurd hs (by simp)
          · intro s hs
            exact absurd hs (by simp)
          · intro hgslash _
            have heq : ensureSlash g.path = g.path := ensureSlash_idem _ (hgslash g rfl)
            simp [heq]
        | some s =>
          simp only at h
          by_cases hse : urlString s = ""
          · rw [if_pos hse] at h
            simp only [Except.ok.injEq, Prod.mk.injEq] at h
            obtain ⟨_hout, hafter⟩ := h
            subst hafter
            refine ⟨rfl, rfl, ?_, ?_, ?_, ?_, ?_⟩
            · intro g0 hg0
              injection hg0 with hg0
              subst hg0
              rfl
            · intro hnone
              exact absurd hnone (by simp)
            · intro s0 hs0 _
              injection hs0 with hs0
              subst hs0
              rfl
            · intro s0 hs0 hs0ne
              injection hs0 with hs0
              subst hs0
              exact absurd hse hs0ne
            · intro hgslash _
              have heq : ensureSlash g.path = g.path := ensureSlash_idem _ (hgslash g rfl)
              simp [heq]
          · rw [if_neg hse] at h
            simp only [Except.ok.injEq, Prod.mk.injEq] at h
            obtain ⟨_hout, hafter⟩ := h
            subst hafter
            refine ⟨rfl, rfl, ?_, ?_, ?_, ?_, ?_⟩
            · intro g0 hg0
              injection hg0 with hg0
              subst hg0
              rfl
            · intro hnone
              exact absurd hnone (by simp)
            · intro s0 hs0 hs0e
              injection hs0 with hs0
              subst hs0
              exact absurd hs0e hse
            · intro s0 hs0 _
              injection hs0 with hs0
              subst hs0
              rfl
            · intro hgslash hsslash
              have heqg : ensureSlash g.path = g.path := ensureSlash_idem _ (hgslash g rfl)
              have heqs : ensureSlash s.path = s.path := ensureSlash_idem _ (hsslash s rfl)
              simp [heqg, heqs]

/-- Witness for C9's amended theorem, applied at a concrete config whose
snapshot URL is set and slash-free: the input as observed after the call
carries the normalized snapshot path. -/
theorem c9_mutation_characterized_witness :
    ({ GrafanaAPIKey := "k", SnapshotAPIKey := "z",
       GrafanaAddr := some ⟨"https", "g.example", "/"⟩,
       SnapshotAddr := some ⟨"https", "s.example", "/"⟩ } : Config).SnapshotAddr =
      some { (⟨"https", "s.example", ""⟩ : GoURL) with path := ensureSlash "" } := by
  have h : processConfig { GrafanaAPIKey := "k", SnapshotAPIKey := "z",
                           GrafanaAddr := some ⟨"https", "g.example", "/"⟩,
                           SnapshotAddr := some ⟨"https", "s.example", ""⟩ } =
      .ok ({ GrafanaAPIKey := "k", SnapshotAPIKey := "z",
             GrafanaAddr := some ⟨"https", "g.example", "/"⟩,
             SnapshotAddr := some ⟨"https", "s.example", "/"⟩ },
           { GrafanaAPIKey := "k", SnapshotAPIKey := "z",
             GrafanaAddr := some ⟨"https", "g.example", "/"⟩,
             SnapshotAddr := some ⟨"https", "s.example", "/"⟩ }) := by decide
  have hc := c9_mutation_characterized _ _ _ h
  exact hc.2.2.2.2.2.1 ⟨"https", "s.example", ""⟩ rfl (by decide)

/-- Claim C10: `processConfig` is idempotent on accepted inputs:
re-validating the returned config succeeds and returns it unchanged
(and performs no further mutation). -/
theorem c10_processConfig_idempotent :
    ∀ c out after, processConfig c = .ok (out, after) →
      processConfig out = .ok (out, out) := by
  intro c out after h
  unfold processConfig at h
  cases hga : c.GrafanaAddr with
  | none => rw [hga] at h; exact absurd h (by simp)
  | some g =>
    rw [hga] at h
    simp only at h
    by_cases hge : urlString g = ""
    · simp [hge] at h
    · rw [if_neg hge] at h
      by_cases hk : c.GrafanaAPIKey = ""
      · simp [hk] at h
      · rw [if_neg hk] at h
        -- in every success branch the output has slash-terminated URLs and
        -- non-empty keys, so a second run changes nothing
        have key2 : (if c.SnapshotAPIKey = "" then c.GrafanaAPIKey else c.SnapshotAPIKey) ≠ "" := by
          by_cases hks : c.SnapshotAPIKey = ""
          · simpa [hks] using hk
          · simp [hks]
        have run2 : ∀ u v : GoURL,
            goHasSuffix u.path "/" = true → goHasSuffix v.path "/" = true →
            processConfig { GrafanaAPIKey := c.GrafanaAPIKey,
                            SnapshotAPIKey := (if c.SnapshotAPIKey = "" then c.GrafanaAPIKey
                                               else c.SnapshotAPIKey),
                            GrafanaAddr := some u, SnapshotAddr := some v } =
              .ok ({ GrafanaAPIKey := c.GrafanaAPIKey,
                     SnapshotAPIKey := (if c.SnapshotAPIKey = "" then c.GrafanaAPIKey
                                        else c.SnapshotAPIKey),
                     GrafanaAddr := some u, SnapshotAddr := some v },
                   { GrafanaAPIKey := c.GrafanaAPIKey,
                     SnapshotAPIKey := (if c.SnapshotAPIKey = "" then c.GrafanaAPIKey
                                        else c.SnapshotAPIKey),
                     GrafanaAddr := some u, SnapshotAddr := some v }) := by
          intro u v hu hv
          unfold processConfig
          simp only
          rw [if_neg (urlString_ne_empty_of_slash u hu)]
          rw [if_neg hk]
          rw [if_neg (urlString_ne_empty_of_slash v hv)]
          rw [if_neg key2]
          have hu' : ensureSlash u.path = u.path := ensureSlash_idem _ hu
          have hv' : ensureSlash v.path = v.path := ensureSlash_idem _ hv
          simp [hu', hv']
        cases hsa : c.SnapshotAddr with
        | none =>
          rw [hsa] at h
          simp only at h
          simp only [Except.ok.injEq, Prod.mk.injEq] at h
          obtain ⟨hout, _⟩ := h
          subst hout
          exact run2 _ _ (ensureSlash_hasSuffix g.path) (ensureSlash_hasSuffix g.path)
        | some s =>
          rw [hsa] at h
          simp only at h
          by_cases hse : urlString s = ""
          · rw [if_pos hse] at h
            simp only [Except.ok.injEq, Prod.mk.injEq] at h
            obtain ⟨hout, _⟩ := h
            subst hout
            exact run2 _ _ (ensureSlash_hasSuffix g.path) (ensureSlash_hasSuffix g.path)
          · rw [if_neg hse] at h
            simp only [Except.ok.injEq, Prod.mk.injEq] at h
            obtain ⟨hout, _⟩ := h
            subst hout
            exact run2 _ _ (ensureSlash_hasSuffix g.path) (ensureSlash_hasSuffix s.path)

/-- Witness for C10 at a concrete accepted config. -/
theorem c10_processConfig_idempotent_witness :
    processConfig { GrafanaAPIKey := "k", SnapshotAPIKey := "",
                    GrafanaAddr := some ⟨"https", "grafana.net", ""⟩,
                    SnapshotAddr := some ⟨"https", "snapshot.raintank.io", ""⟩ } =
      .ok ({ GrafanaAPIKey := "k", SnapshotAPIKey := "k",
             GrafanaAddr := some ⟨"https", "grafana.net", "/"⟩,
             SnapshotAddr := some ⟨"https", "snapshot.raintank.io", "/"⟩ },
           { GrafanaAPIKey := "k", SnapshotAPIKey := "",
             GrafanaAddr := some ⟨"https", "grafana.net", "/"⟩,
             SnapshotAddr := some ⟨"https", "snapshot.raintank.io", "/"⟩ }) ∧
    processConfig { GrafanaAPIKey := "k", SnapshotAPIKey := "k",
                    GrafanaAddr := some ⟨"https", "grafana.net", "/"⟩,
                    SnapshotAddr := some ⟨"https", "snapshot.raintank.io", "/"⟩ } =
      .ok ({ GrafanaAPIKey := "k", SnapshotAPIKey := "k",
             GrafanaAddr := some ⟨"https", "grafana.net", "/"⟩,
             SnapshotAddr := some ⟨"https", "snapshot.raintank.io", "/"⟩ },
           { GrafanaAPIKey := "k", SnapshotAPIKey := "k",
             GrafanaAddr := some ⟨"https", "grafana.net", "/"⟩,
             SnapshotAddr := some ⟨"https", "snapshot.raintank.io", "/"⟩ }) := by
  have h1 : processConfig { GrafanaAPIKey := "k", SnapshotAPIKey := "",
                            GrafanaAddr := some ⟨"https", "grafana.net", ""⟩,
                            SnapshotAddr := some ⟨"https", "snapshot.raintank.io", ""⟩ } =
      .ok ({ GrafanaAPIKey := "k", SnapshotAPIKey := "k",
             GrafanaAddr := some ⟨"https", "grafana.net", "/"⟩,
             SnapshotAddr := some ⟨"https", "snapshot.raintank.io", "/"⟩ },
           { GrafanaAPIKey := "k", SnapshotAPIKey := "",
             GrafanaAddr := some ⟨"https", "grafana.net", "/"⟩,
             SnapshotAddr := some ⟨"https", "snapshot.raintank.io", "/"⟩ }) := by decide
  exact ⟨h1, c10_processConfig_idempotent _ _ _ h1⟩

/-! ### `processTakeConfig` (snapshot package) -/

/-- Model of Go `time.Time` as a wall-clock calendar instant (the program
parses all times in a single location with layout
`"2006-01-02 15:04:05"`, so calendar order is instant order). -/
structure GoTime where
  year : Nat
  month : Nat
  day : Nat
  hour : Nat
  minute : Nat
  second : Nat
deriving DecidableEq, Repr

/-- Linearization used to compare instants (valid for in-range calendar
fields: month and day below 100, hour/minute/second below 100). -/
def timeKey (t : GoTime) : Nat :=
  ((((t.year * 100 + t.month) * 100 + t.day) * 100 + t.hour) * 100 + t.minute) * 100 + t.second

/-- Go `a.Before(b)` for wall-clock times in one location. -/
def goTimeBefore (a b : GoTime) : Bool := timeKey a < timeKey b

/-- Render a natural zero-padded to two digits (Go `"01"` / `"02"` format
verbs). -/
def pad2 (n : Nat) : String := if n < 10 then "0" ++ toString n else toString n

/-- Render a year zero-padded to four digits (Go `"2006"` format verb). -/
def pad4 (n : Nat) : String :=
  if n < 10 then "000" ++ toString n
  else if n < 100 then "00" ++ toString n
  else if n < 1000 then "0" ++ toString n
  else toString n

/-- Go `t.Format("2006-01-02")`. -/
def formatYMD (t : GoTime) : String :=
  pad4 t.year ++ "-" ++ pad2 t.month ++ "-" ++ pad2 t.day

/-- `snapshot.TakeConfig`.  `From`/`To` are `*time.Time` (nil = `none`);
`Vars` is a Go map (nil = `none`, modelled as an association list);
`Expires` is a `time.Duration` in nanoseconds. -/
structure TakeConfig where
  DashSlug : String
  From : Option GoTime
  To : Option GoTime
  Vars : Option (List (String × String))
  Expires : Int
  SnapshotName : String
deriving DecidableEq, Repr

/-- `snapshot.processTakeConfig`. -/
def processTakeConfig (cIn : TakeConfig) : Except String TakeConfig :=
  if cIn.DashSlug = "" then .error "Missing required Config field: DashSlug"
  else match cIn.From with
  | none => .error "Missing required Config field: From"
  | some f =>
    match cIn.To with
    | none => .error "Missing required Config field: To"
    | some t =>
      if ¬ (goTimeBefore f t = true) then
        .error "TakeConfig To field must come cronologically after From"
      else
        .ok { DashSlug := cIn.DashSlug,
              From := some f,
              To := some t,
              Vars := some (cIn.Vars.getD []),
              Expires := if cIn.Expires < 0 then 0 else cIn.Expires,
              SnapshotName :=
                if cIn.SnapshotName = "" then formatYMD t ++ " " ++ cIn.DashSlug
                else cIn.SnapshotName }

/-- Claim C4: given a `TakeConfig` whose `DashSlug`, `From` and `To` are
all present, `processTakeConfig` fails iff `From >= To`; on success it
defaults `Vars` to an empty mapping, clamps a negative `Expires` to 0,
and defaults `SnapshotName` to the `To` date (`YYYY-MM-DD`), a space and
the `DashSlug`. -/
theorem c4_processTakeConfig_validation :
    ∀ (c : TakeConfig) (f t : GoTime),
      c.DashSlug ≠ "" → c.From = some f → c.To = some t →
      ((∃ e, processTakeConfig c = .error e) ↔ goTimeBefore f t = false) ∧
      (∀ out, processTakeConfig c = .ok out →
          out.DashSlug = c.DashSlug ∧
          out.From = some f ∧ out.To = some t ∧
          out.Vars = some (c.Vars.getD []) ∧
          (c.Expires < 0 → out.Expires = 0) ∧
          (0 ≤ c.Expires → out.Expires = c.Expires) ∧
          (c.SnapshotName = "" → out.SnapshotName = formatYMD t ++ " " ++ c.DashSlug) ∧
          (c.SnapshotName ≠ "" → out.SnapshotName = c.SnapshotName)) := by
  intro c f t hslug hf ht
  constructor
  · constructor
    · rintro ⟨e, he⟩
      unfold processTakeConfig at he
      rw [if_neg hslug, hf] at he
      simp only at he
      rw [ht] at he
      simp only at he
      by_cases hb : goTimeBefore f t = true
      · rw [if_neg (by simp [hb])] at he
        exact absurd he (by simp)
      · simpa using hb
    · intro hb
      unfold processTakeConfig
      rw [if_neg hslug, hf]
      simp only
      rw [ht]
      simp only
      rw [if_pos (by simp [hb])]
      exact ⟨_, rfl⟩
  · intro out h
    unfold processTakeConfig at h
    rw [if_neg hslug, hf] at h
    simp only at h
    rw [ht] at h
    simp only at h
    by_cases hb : goTimeBefore f t = true
    · rw [if_neg (by simp [hb])] at h
      simp only [Except.ok.injEq] at h
      subst h
      refine ⟨rfl, rfl, rfl, rfl, ?_, ?_, ?_, ?_⟩
      · intro hneg; simp [hneg]
      · intro hpos; simp [not_lt_of_le hpos]
      · intro hn; simp [hn]
      · intro hn; simp [hn]
    · rw [if_pos (by simp [hb])] at h
      exact absurd h (by simp)

/-- Witness for C4 at the test suite's example: from 2017-02-05 06:00:00
to 2017-02-05 12:00:00 with slug `test-slug` and all optional fields
unset. -/
theorem c4_processTakeConfig_validation_witness :
    processTakeConfig { DashSlug := "test-slug",
                        From := some ⟨2017, 2, 5, 6, 0, 0⟩,
                        To := some ⟨2017, 2, 5, 12, 0, 0⟩,
                        Vars := none, Expires := 0, SnapshotName := "" } =
      .ok { DashSlug := "test-slug",
            From := some ⟨2017, 2, 5, 6, 0, 0⟩,
            To := some ⟨2017, 2, 5, 12, 0, 0⟩,
            Vars := some [], Expires := 0,
            SnapshotName := "2017-02-05 test-slug" } ∧
    ∀ out, processTakeConfig { DashSlug := "test-slug",
                               From := some ⟨2017, 2, 5, 6, 0, 0⟩,
                               To := some ⟨2017, 2, 5, 12, 0, 0⟩,
                               Vars := none, Expires := 0, SnapshotName := "" } = .ok out →
      out.SnapshotName = "2017-02-05 test-slug" := by
  constructor
  · decide
  · intro out h
    have hc := (c4_processTakeConfig_validation _ ⟨2017, 2, 5, 6, 0, 0⟩ ⟨2017, 2, 5, 12, 0, 0⟩
        (by decide) rfl rfl).2 out h
    have := hc.2.2.2.2.2.2.1 rfl
    rw [this]
    rfl

/-- Claim C5 counterexample: `processTakeConfig` accepts a `TakeConfig`
whose slug contains a space character (the no-space check lives only in
the CLI flag parser `parseAndValidateFlags`, not in the package
validator). -/
theorem c5_space_slug_accepted :
    (processTakeConfig { DashSlug := "has a space",
                         From := some ⟨2017, 2, 5, 6, 0, 0⟩,
                         To := some ⟨2017, 2, 5, 12, 0, 0⟩,
                         Vars := none, Expires := 0, SnapshotName := "n" }).isOk = true ∧
    ' ' ∈ "has a space".data := by
  constructor
  · decide
  · decide

/-- Claim C5 (amended): every `TakeConfig` accepted by
`processTakeConfig` has a non-empty `DashSlug`, preserved from the
input; `processTakeConfig` itself imposes no no-space restriction. -/
theorem c5_accepted_slug_nonempty :
    ∀ c out, processTakeConfig c = .ok out →
      out.DashSlug ≠ "" ∧ out.DashSlug = c.DashSlug := by
  intro c out h
  unfold processTakeConfig at h
  by_cases hslug : c.DashSlug = ""
  · rw [if_pos hslug] at h
    exact absurd h (by simp)
  · rw [if_neg hslug] at h
    cases hf : c.From with
    | none => rw [hf] at h; exact absurd h (by simp)
    | some f =>
      rw [hf] at h
      simp only at h
      cases ht : c.To with
      | none => rw [ht] at h; exact absurd h (by simp)
      | some t =>
        rw [ht] at h
        simp only at h
        by_cases hb : goTimeBefore f t = true
        · rw [if_neg (by simp [hb])] at h
          simp only [Except.ok.injEq] at h
          subst h
          exact ⟨hslug, rfl⟩
        · rw [if_pos (by simp [hb])] at h
          exact absurd h (by simp)

/-- Witness for C5's amended theorem at a concrete accepted config. -/
theorem c5_accepted_slug_nonempty_witness :
    ("test-slug" : String) ≠ "" := by
  have h : processTakeConfig { DashSlug := "test-slug",
                               From := some ⟨2017, 2, 5, 6, 0, 0⟩,
                               To := some ⟨2017, 2, 5, 12, 0, 0⟩,
                               Vars := none, Expires := 0, SnapshotName := "n" } =
      .ok { DashSlug := "test-slug",
            From := some ⟨2017, 2, 5, 6, 0, 0⟩,
            To := some ⟨2017, 2, 5, 12, 0, 0⟩,
            Vars := some [], Expires := 0, SnapshotName := "n" } := by decide
  exact (c5_accepted_slug_nonempty _ _ h).1

/-! ### Template substitution (`substituteVars`, both revisions) -/

/-- Fuelled worker for Go `strings.Replace(s, p, v, -1)` on rune lists:
scan left to right, replace each leftmost non-overlapping occurrence of
`p`, never rescanning the inserted replacement.  The fuel only serves to
make the recursion structural; `replaceAllL` instantiates it with the
list length, which is always sufficient. -/
def replaceAllFuel (p v : List Char) : Nat → List Char → List Char
  | 0, s => s
  | _ + 1, [] => []
  | fuel + 1, c :: t =>
    if p ≠ [] ∧ p <+: (c :: t) then v ++ replaceAllFuel p v fuel ((c :: t).drop p.length)
    else c :: replaceAllFuel p v fuel t

/-- Go `strings.Replace(s, p, v, -1)` on rune lists, for non-empty `p`
(`replaceAllFuel` with adequate fuel). -/
def replaceAllL (p v s : List Char) : List Char := replaceAllFuel p v s.length s

theorem replaceAllFuel_congr (p v : List Char) :
    ∀ (f1 f2 : Nat) (s : List Char), s.length ≤ f1 → s.length ≤ f2 →
      replaceAllFuel p v f1 s = replaceAllFuel p v f2 s := by
  intro f1
  induction f1 with
  | zero =>
    intro f2 s h1 _
    have hs : s = [] := List.eq_nil_of_length_eq_zero (Nat.le_zero.mp h1)
    subst hs
    cases f2 <;> rfl
  | succ f1 ih =>
    intro f2 s h1 h2
    cases s with
    | nil => cases f2 <;> rfl
    | cons c t =>
      cases f2 with
      | zero => exact absurd h2 (by simp)
      | succ f2 =>
        simp only [replaceAllFuel]
        by_cases hguard : p ≠ [] ∧ p <+: (c :: t)
        · rw [if_pos hguard, if_pos hguard]
          congr 1
          have hp1 : 1 ≤ p.length := List.length_pos.mpr hguard.1
          have hlen : ((c :: t).drop p.length).length ≤ t.length := by
            simp only [List.length_drop, List.length_cons]
            omega
          have hl1 : t.length ≤ f1 := by simpa using h1
          have hl2 : t.length ≤ f2 := by simpa using h2
          exact ih f2 _ (le_trans hlen hl1) (le_trans hlen hl2)
        · rw [if_neg hguard, if_neg hguard]
          congr 1
          have hl1 : t.length ≤ f1 := by simpa using h1
          have hl2 : t.length ≤ f2 := by simpa using h2
          exact ih f2 t hl1 hl2

theorem replaceAllL_nil (p v : List Char) : replaceAllL p v [] = [] := rfl

theorem replaceAllL_cons_pos (p v : List Char) (c : Char) (t : List Char)
    (hp : p ≠ []) (hpre : p <+: (c :: t)) :
    replaceAllL p v (c :: t) = v ++ replaceAllL p v ((c :: t).drop p.length) := by
  unfold replaceAllL
  simp only [List.length_cons, replaceAllFuel]
  rw [if_pos ⟨hp, hpre⟩]
  congr 1
  have hp1 : 1 ≤ p.length := List.length_pos.mpr hp
  apply replaceAllFuel_congr
  · simp only [List.length_drop, List.length_cons]
    omega
  · exact le_refl _

theorem replaceAllL_cons_neg (p v : List Char) (c : Char) (t : List Char)
    (h : ¬ p <+: (c :: t)) :
    replaceAllL p v (c :: t) = c :: replaceAllL p v t := by
  unfold replaceAllL
  simp only [List.length_cons, replaceAllFuel]
  rw [if_neg (by intro hand; exact h hand.2)]

/-- Replacing at an occurrence of the pattern itself. -/
theorem replaceAllL_matchhead (p v x : List Char) (hp : p ≠ []) :
    replaceAllL p v (p ++ x) = v ++ replaceAllL p v x := by
  cases p with
  | nil => exact absurd rfl hp
  | cons c p' =>
    rw [List.cons_append,
        replaceAllL_cons_pos _ _ _ _ hp (by rw [← List.cons_append]; exact List.prefix_append _ _)]
    congr 2
    rw [← List.cons_append]
    exact List.drop_left _ _

/-- A block of characters that cannot start a match is copied verbatim. -/
theorem replaceAllL_skip (ph : Char) (p' v : List Char) :
    ∀ (a t : List Char), ph ∉ a →
      replaceAllL (ph :: p') v (a ++ t) = a ++ replaceAllL (ph :: p') v t := by
  intro a
  induction a with
  | nil => intro t _; rfl
  | cons c a' ih =>
    intro t ha
    simp only [List.mem_cons, not_or] at ha
    have hne : ¬ (ph :: p') <+: (c :: (a' ++ t)) := by
      rw [List.cons_prefix_cons]
      rintro ⟨hph, -⟩
      exact ha.1 hph
    rw [List.cons_append, replaceAllL_cons_neg _ _ _ _ hne,
        ih t ha.2]
    rfl

/-- A pattern-free, value-free word is a prefix of the replaced text iff
it is a prefix of the original text. -/
theorem replaceAllL_prefix_iff (ph : Char) (p' v : List Char) (hv : v ≠ []) :
    ∀ (x q : List Char), ph ∉ q → (∀ ch ∈ q, ch ∉ v) →
      (q <+: replaceAllL (ph :: p') v x ↔ q <+: x)
  | [], q, _, _ => by rw [replaceAllL_nil]
  | c :: t, q, hq1, hq2 => by
    by_cases hpre : (ph :: p') <+: (c :: t)
    · rw [replaceAllL_cons_pos _ _ _ _ (by simp) hpre]
      cases q with
      | nil => simp
      | cons qh q' =>
        have hphc : ph = c := (List.cons_prefix_cons.mp hpre).1
        constructor
        · intro hcontra
          exfalso
          cases v with
          | nil => exact hv rfl
          | cons vh v' =>
            rw [List.cons_append, List.cons_prefix_cons] at hcontra
            exact hq2 qh (by simp) (hcontra.1 ▸ by simp)
        · intro hcontra
          exfalso
          have hqc : qh = c := (List.cons_prefix_cons.mp hcontra).1
          exact hq1 (by rw [hphc, ← hqc]; simp)
    · rw [replaceAllL_cons_neg _ _ _ _ hpre]
      cases q with
      | nil => simp
      | cons qh q' =>
        rw [List.cons_prefix_cons, List.cons_prefix_cons]
        refine and_congr_right fun _ => ?_
        exact replaceAllL_prefix_iff ph p' v hv t q'
          (fun hmem => hq1 (List.mem_cons_of_mem _ hmem))
          (fun ch hch => hq2 ch (List.mem_cons_of_mem _ hch))

/-- Core commutation: two non-interfering dollar-name replacements
commute on every text. -/
theorem replaceAllL_comm (n1 v1 n2 v2 : List Char)
    (_hn1 : n1 ≠ []) (_hn2 : n2 ≠ []) (hv1 : v1 ≠ []) (hv2 : v2 ≠ [])
    (hp12 : ¬ n1 <+: n2) (hp21 : ¬ n2 <+: n1)
    (hd1 : '$' ∉ n1) (hd2 : '$' ∉ n2)
    (hdv1 : '$' ∉ v1) (hdv2 : '$' ∉ v2)
    (hv1n2 : ∀ ch ∈ v1, ch ∉ n2) (hv2n1 : ∀ ch ∈ v2, ch ∉ n1) :
    ∀ s, replaceAllL ('$' :: n2) v2 (replaceAllL ('$' :: n1) v1 s) =
         replaceAllL ('$' :: n1) v1 (replaceAllL ('$' :: n2) v2 s) := by
  have hn2v1 : ∀ ch ∈ n2, ch ∉ v1 := fun ch hch hchv => hv1n2 ch hchv hch
  have hn1v2 : ∀ ch ∈ n1, ch ∉ v2 := fun ch hch hchv => hv2n1 ch hchv hch
  suffices key : ∀ N (s : List Char), s.length = N →
      replaceAllL ('$' :: n2) v2 (replaceAllL ('$' :: n1) v1 s) =
      replaceAllL ('$' :: n1) v1 (replaceAllL ('$' :: n2) v2 s) by
    exact fun s => key s.length s rfl
  intro N
  induction N using Nat.strong_induction_on with
  | _ N ih =>
  intro s hN
  cases s with
  | nil => rw [replaceAllL_nil, replaceAllL_nil, replaceAllL_nil]
  | cons c t =>
    by_cases h1 : ('$' :: n1) <+: (c :: t)
    · obtain ⟨r, hr⟩ := h1
      rw [← hr]
      have hlenr : r.length < N := by
        rw [← hN, ← hr]
        simp
        omega
      rw [replaceAllL_matchhead _ _ _ (by simp)]
      rw [replaceAllL_skip '$' n2 v2 v1 _ hdv1]
      have hR2p1 : replaceAllL ('$' :: n2) v2 (('$' :: n1) ++ r) =
          ('$' :: n1) ++ replaceAllL ('$' :: n2) v2 r := by
        have hnomatch : ¬ ('$' :: n2) <+: ('$' :: (n1 ++ r)) := by
          rw [List.cons_prefix_cons]
          rintro ⟨-, hpre2⟩
          rcases List.prefix_or_prefix_of_prefix hpre2 (List.prefix_append n1 r) with hc | hc
          · exact hp21 hc
          · exact hp12 hc
        rw [List.cons_append, replaceAllL_cons_neg _ _ _ _ hnomatch,
            replaceAllL_skip '$' n2 v2 n1 r hd1]
        rfl
      rw [hR2p1, replaceAllL_matchhead _ _ _ (by simp)]
      congr 1
      exact ih r.length hlenr r rfl
    · by_cases h2 : ('$' :: n2) <+: (c :: t)
      · obtain ⟨r, hr⟩ := h2
        rw [← hr]
        have hlenr : r.length < N := by
          rw [← hN, ← hr]
          simp
          omega
        rw [replaceAllL_matchhead _ _ _ (by simp)]
        rw [replaceAllL_skip '$' n1 v1 v2 _ hdv2]
        have hR1p2 : replaceAllL ('$' :: n1) v1 (('$' :: n2) ++ r) =
            ('$' :: n2) ++ replaceAllL ('$' :: n1) v1 r := by
          have hnomatch : ¬ ('$' :: n1) <+: ('$' :: (n2 ++ r)) := by
            rw [List.cons_prefix_cons]
            rintro ⟨-, hpre2⟩
            rcases List.prefix_or_prefix_of_prefix hpre2 (List.prefix_append n2 r) with hc | hc
            · exact hp12 hc
            · exact hp21 hc
          rw [List.cons_append, replaceAllL_cons_neg _ _ _ _ hnomatch,
              replaceAllL_skip '$' n1 v1 n2 r hd2]
          rfl
        rw [hR1p2, replaceAllL_matchhead _ _ _ (by simp)]
        congr 1
        exact ih r.length hlenr r rfl
      · rw [replaceAllL_cons_neg _ _ _ _ h1, replaceAllL_cons_neg _ _ _ _ h2]
        have hlt : t.length < N := by rw [← hN]; simp
        have hnm2 : ¬ ('$' :: n2) <+: (c :: replaceAllL ('$' :: n1) v1 t) := by
          rw [List.cons_prefix_cons]
          rintro ⟨hc, hpre2⟩
          apply h2
          rw [List.cons_prefix_cons]
          exact ⟨hc, (replaceAllL_prefix_iff '$' n1 v1 hv1 t n2 hd2 hn2v1).mp hpre2⟩
        have hnm1 : ¬ ('$' :: n1) <+: (c :: replaceAllL ('$' :: n2) v2 t) := by
          rw [List.cons_prefix_cons]
          rintro ⟨hc, hpre1⟩
          apply h1
          rw [List.cons_prefix_cons]
          exact ⟨hc, (replaceAllL_prefix_iff '$' n2 v2 hv2 t n1 hd1 hn1v2).mp hpre1⟩
        rw [replaceAllL_cons_neg _ _ _ _ hnm2, replaceAllL_cons_neg _ _ _ _ hnm1]
        congr 1
        exact ih t.length hlt t rfl

/-- Go `strings.Replace(s, old, new, -1)`.  An empty `old` splices `new`
before every rune and at the start, as in Go. -/
def goReplace (s old new : String) : String :=
  if old.data = [] then ⟨new.data ++ s.data.flatMap (fun c => c :: new.data)⟩
  else ⟨replaceAllL old.data new.data s.data⟩

/-- `SnapClient.substituteVars` (and the identical `substituteVars` in
main.go): for each entry `(k, v)` of the vars map, replace every
occurrence of `"$" + k` by `v` in the dashboard text.  The Go map
iteration order is modelled by the list order. -/
def substituteVars (vars : List (String × String)) (dashboardString : String) : String :=
  vars.foldl (fun acc e => goReplace acc ("$" ++ e.1) e.2) dashboardString

/-- Non-interference of two substitution entries: names and values are
non-empty and dollar-free, neither name is a prefix of the other, and
each value shares no character with the other entry's name. -/
def NonInterfering (e1 e2 : String × String) : Prop :=
  e1.1.data ≠ [] ∧ e2.1.data ≠ [] ∧ e1.2.data ≠ [] ∧ e2.2.data ≠ [] ∧
  ¬ e1.1.data <+: e2.1.data ∧ ¬ e2.1.data <+: e1.1.data ∧
  ('$' ∉ e1.1.data) ∧ ('$' ∉ e2.1.data) ∧ ('$' ∉ e1.2.data) ∧ ('$' ∉ e2.2.data) ∧
  (∀ ch ∈ e1.2.data, ch ∉ e2.1.data) ∧ (∀ ch ∈ e2.2.data, ch ∉ e1.1.data)

instance (e1 e2 : String × String) : Decidable (NonInterfering e1 e2) := by
  unfold NonInterfering
  infer_instance

theorem goReplace_comm (e1 e2 : String × String) (h : NonInterfering e1 e2) (z : String) :
    goReplace (goReplace z ("$" ++ e1.1) e1.2) ("$" ++ e2.1) e2.2 =
    goReplace (goReplace z ("$" ++ e2.1) e2.2) ("$" ++ e1.1) e1.2 := by
  obtain ⟨h1, h2, h3, h4, h5, h6, h7, h8, h9, h10, h11, h12⟩ := h
  have hdata1 : ("$" ++ e1.1).data = '$' :: e1.1.data := by
    rw [String.data_append]
    rfl
  have hdata2 : ("$" ++ e2.1).data = '$' :: e2.1.data := by
    rw [String.data_append]
    rfl
  unfold goReplace
  rw [hdata1, hdata2]
  rw [if_neg (by simp), if_neg (by simp), if_neg (by simp), if_neg (by simp)]
  exact congrArg String.mk
    (replaceAllL_comm e1.1.data e1.2.data e2.1.data e2.2.data
      h1 h2 h3 h4 h5 h6 h7 h8 h9 h10 h11 h12 z.data)

/-- Claim C6 counterexample: with vars `a ↦ x` and `ab ↦ y`, the text
`$ab` substitutes to `xb` in one iteration order and to `y` in the
other, so the result is not independent of the mapping's iteration
order. -/
theorem c6_order_dependent :
    substituteVars [("a", "x"), ("ab", "y")] "$ab" = "xb" ∧
    substituteVars [("ab", "y"), ("a", "x")] "$ab" = "y" ∧
    ("xb" : String) ≠ "y" ∧
    List.Perm [(("a" : String), ("x" : String)), ("ab", "y")] [("ab", "y"), ("a", "x")] := by
  refine ⟨by decide, by decide, by decide, by decide⟩

/-- Claim C6 (amended): `substituteVars` applies, for each entry in
iteration order, a full literal replacement of `$name` by the value; the
result is independent of the iteration order whenever the entries are
pairwise non-interfering (dollar-free non-empty names neither of which
is a prefix of the other, dollar-free non-empty values sharing no
character with the other name), but not in general. -/
theorem c6_order_independent_noninterfering :
    ∀ (vars vars' : List (String × String)) (s : String),
      List.Perm vars vars' →
      (∀ e1 ∈ vars, ∀ e2 ∈ vars, e1 = e2 ∨ NonInterfering e1 e2) →
      substituteVars vars s = substituteVars vars' s := by
  intro vars vars' s hperm hpair
  unfold substituteVars
  refine hperm.foldl_eq' ?_ s
  intro x hx y hy z
  rcases hpair x hx y hy with rfl | hni
  · rfl
  · exact goReplace_comm x y hni z

/-- Witness for C6's amended theorem: two non-interfering entries give
the same result in either order on a concrete text. -/
theorem c6_order_independent_noninterfering_witness :
    substituteVars [("env", "1"), ("dc", "2")] "$env of $dc" =
    substituteVars [("dc", "2"), ("env", "1")] "$env of $dc" := by
  apply c6_order_independent_noninterfering
  · decide
  · decide

/-! ### Step calculation (main.go first revision, and `SnapClient.Take`) -/

/-- One query target within a panel, restricted to the fields the code
reads.  `interval` and `legendFormat` are JSON fields that may be absent
(`none`); `intervalFactor` is a JSON number. -/
structure GoTarget where
  expr : String
  interval : Option String
  intervalFactor : Option ℚ
  legendFormat : Option String
deriving DecidableEq, Repr

/-- Nanoseconds per unit, as in Go `time.ParseDuration`'s unit table
(the µs aliases are not needed by these dashboards). -/
def durationUnitNs (u : String) : Option Int :=
  if u = "ns" then some 1
  else if u = "us" then some 1000
  else if u = "ms" then some 1000000
  else if u = "s" then some 1000000000
  else if u = "m" then some 60000000000
  else if u = "h" then some 3600000000000
  else none

/-- Split a leading run of decimal digits. -/
def takeDigits : List Char → (List Char × List Char)
  | [] => ([], [])
  | c :: rest =>
    if c.isDigit then
      let (d, r) := takeDigits rest
      (c :: d, r)
    else ([], c :: rest)

/-- Split a leading run of non-digits (a unit name). -/
def takeUnit : List Char → (List Char × List Char)
  | [] => ([], [])
  | c :: rest =>
    if c.isDigit then ([], c :: rest)
    else
      let (u, r) := takeUnit rest
      (c :: u, r)

/-- Decimal digits to a natural number. -/
def digitsToNat (ds : List Char) : Nat :=
  ds.foldl (fun acc c => acc * 10 + (c.toNat - 48)) 0

/-- Worker for `parseGoDuration`: a sequence of integer+unit groups.
The fuel (instantiated with the character count) only makes the
recursion structural; each group consumes at least one character. -/
def parseDurGroups : Nat → List Char → Option Int
  | _, [] => some 0
  | 0, _ :: _ => none
  | fuel + 1, c :: cs =>
    let (ds, r1) := takeDigits (c :: cs)
    if ds = [] then none
    else
      let (us, r2) := takeUnit r1
      match durationUnitNs ⟨us⟩ with
      | none => none
      | some mult =>
        match parseDurGroups fuel r2 with
        | none => none
        | some rest => some ((digitsToNat ds : Int) * mult + rest)

/-- Model of Go `time.ParseDuration` restricted to the shapes dashboard
interval strings take: one or more unsigned integer+unit groups with
units ns/us/ms/s/m/h (fractions, signs and the bare `"0"` are not
modelled).  Result in nanoseconds. -/
def parseGoDuration (s : String) : Option Int :=
  if s.data = [] then none else parseDurGroups s.data.length s.data

/-- The per-target step computation of `SnapClient.Take` (both revisions
of the snapshot package): `interval` defaults to 30s and is overridden
by parsing `target["interval"]` when that field is set and non-empty;
`step = interval.Seconds() * intervalFactor` with factor defaulting
to 1.  The range-based formula is never used here.  A duration parse
failure aborts the `Take` call. -/
def snapTargetStep (t : GoTarget) : Except String ℚ :=
  let intervalFactor : ℚ := t.intervalFactor.getD 1
  match t.interval with
  | some s =>
    if s ≠ "" then
      match parseGoDuration s with
      | none => .error ("time: invalid duration " ++ s)
      | some d => .ok ((d : ℚ) / 1000000000 * intervalFactor)
    else .ok (30 * intervalFactor)
  | none => .ok (30 * intervalFactor)

/-- The per-target step computation of main.go's first revision:
Grafana's range-based heuristic with `maxDataPoints = 500` and the
11000-point clamp; `target["interval"]` is not consulted.  Modelled
over ℚ (the Go code computes in float64; on the positive integral
ranges and factors involved here the two agree). -/
def mainStep (queryRange intervalFactor : ℚ) : ℚ :=
  let step : ℚ := ((⌈queryRange / 500 * intervalFactor⌉ : ℤ) : ℚ)
  if queryRange / step > 11000 then ((⌈queryRange / 11000⌉ : ℤ) : ℚ) else step

/-- Modelled from the spec: the "unified policy" of §4.3 in the spec's
words — if `target.interval` is set and non-empty, the step is the
parsed duration (in seconds) times `intervalFactor`; otherwise the
range-based formula with the 11000-point clamp.  No revision of the
code implements this combination; the definition exists to compare the
spec's words with the two implemented variants. -/
def specUnifiedStep (interval : Option String) (intervalFactor queryRange : ℚ) :
    Except String ℚ :=
  match interval with
  | some s =>
    if s ≠ "" then
      match parseGoDuration s with
      | none => .error ("time: invalid duration " ++ s)
      | some d => .ok ((d : ℚ) / 1000000000 * intervalFactor)
    else .ok (mainStep queryRange intervalFactor)
  | none => .ok (mainStep queryRange intervalFactor)

theorem ceil_21600_500 : (⌈(21600 : ℚ) / 500 * 1⌉ : ℤ) = 44 := by
  rw [Int.ceil_eq_iff]
  norm_num

theorem mainStep_21600 : mainStep 21600 1 = 44 := by
  unfold mainStep
  rw [ceil_21600_500]
  norm_num

/-- Claim C2 counterexample: neither implemented variant computes the
unified policy's step.  Over a 21600-second range with factor 1 and no
explicit interval the unified policy gives 44 but the snapshot package
computes 30 (its 30s default; the range formula is never used); with
interval `"1m"` the unified policy gives 60 but main.go's variant still
computes 44 (the range formula; the interval is never consulted). -/
theorem c2_step_policy_counterexample :
    snapTargetStep { expr := "up", interval := none, intervalFactor := none,
                     legendFormat := none } = .ok 30 ∧
    specUnifiedStep none 1 21600 = .ok 44 ∧
    specUnifiedStep (some "1m") 1 21600 = .ok 60 ∧
    mainStep 21600 1 = 44 ∧
    (30 : ℚ) ≠ 44 ∧ (44 : ℚ) ≠ 60 := by
  refine ⟨?_, ?_, ?_, mainStep_21600, by norm_num, by norm_num⟩
  · unfold snapTargetStep
    norm_num
  · unfold specUnifiedStep
    rw [mainStep_21600]
  · unfold specUnifiedStep
    have hp : parseGoDuration "1m" = some 60000000000 := by decide
    simp only
    rw [if_pos (by decide : ("1m" : String) ≠ ""), hp]
    norm_num

/-- Claim C2 (amended): each variant follows its own policy.  The
snapshot package's step is `parseDuration(interval, default 30s) *
factor`, never the range formula; main.go's step is
`ceil(range/500*factor)`, replaced by `ceil(range/11000)` exactly when
`range/step > 11000` (and a 21600-second range with factor 1 and no
interval yields step 44 there). -/
theorem c2_step_variants :
    (∀ t : GoTarget, t.interval = none →
        snapTargetStep t = .ok (30 * t.intervalFactor.getD 1)) ∧
    (∀ (t : GoTarget) (s : String) (d : Int), t.interval = some s → s ≠ "" →
        parseGoDuration s = some d →
        snapTargetStep t = .ok ((d : ℚ) / 1000000000 * t.intervalFactor.getD 1)) ∧
    (∀ queryRange intervalFactor : ℚ,
        ¬ queryRange / ((⌈queryRange / 500 * intervalFactor⌉ : ℤ) : ℚ) > 11000 →
        mainStep queryRange intervalFactor = ((⌈queryRange / 500 * intervalFactor⌉ : ℤ) : ℚ)) ∧
    (∀ queryRange intervalFactor : ℚ,
        queryRange / ((⌈queryRange / 500 * intervalFactor⌉ : ℤ) : ℚ) > 11000 →
        mainStep queryRange intervalFactor = ((⌈queryRange / 11000⌉ : ℤ) : ℚ)) ∧
    mainStep 21600 1 = 44 := by
  refine ⟨?_, ?_, ?_, ?_, mainStep_21600⟩
  · intro t ht
    unfold snapTargetStep
    rw [ht]
  · intro t s d ht hs hd
    unfold snapTargetStep
    rw [ht]
    simp only
    rw [if_pos hs, hd]
  · intro qr f h
    unfold mainStep
    simp only
    rw [if_neg h]
  · intro qr f h
    unfold mainStep
    simp only
    rw [if_pos h]

/-- Witness for C2's amended theorem: interval `"1m"` with factor 2
yields step 120 in the snapshot package, and the clamp-free range
formula yields 44 on the 6h range. -/
theorem c2_step_variants_witness :
    snapTargetStep { expr := "up", interval := some "1m", intervalFactor := some 2,
                     legendFormat := none } = .ok 120 ∧
    mainStep 21600 1 = ((⌈(21600 : ℚ) / 500 * 1⌉ : ℤ) : ℚ) := by
  constructor
  · have h := c2_step_variants.2.1
      { expr := "up", interval := some "1m", intervalFactor := some 2, legendFormat := none }
      "1m" 60000000000 rfl (by decide) (by decide)
    rw [h]
    norm_num
  · refine c2_step_variants.2.2.1 21600 1 ?_
    rw [ceil_21600_500]
    norm_num

/-! ### Prometheus fetch (`SnapClient.fetchDataPointsPrometheus`) -/

/-- Model of a Go `float64` as this code observes it: the code never
does arithmetic on sample values — it only tests NaN-ness and passes
values through — so finite values carry an exact rational and the
special values are explicit constructors. -/
inductive GoFloat where
  | finite (q : ℚ)
  | nan
  | posInf
  | negInf
deriving DecidableEq, Repr

/-- Go `math.IsNaN`. -/
def goIsNaN : GoFloat → Bool
  | .nan => true
  | _ => false

/-- A label set (`model.Metric`), as an association list. -/
abbrev Metric := List (String × String)

/-- One `model.SamplePair`: a timestamp in milliseconds and a float64
sample value. -/
structure SamplePair where
  Timestamp : Int
  Value : GoFloat
deriving DecidableEq, Repr

/-- One `model.SampleStream` of a matrix result. -/
structure SampleStream where
  Metric : Metric
  Values : List SamplePair
deriving DecidableEq, Repr

/-- The shapes a Prometheus query result can take (`model.Value`); only
the matrix shape carries data this code uses. -/
inductive PromValue where
  | matrix (streams : List SampleStream)
  | other (typeName : String)
deriving DecidableEq, Repr

/-- One embedded datapoint:
`[]interface{}{value-or-nil, float64(timestampMillis)}`. -/
structure Datapoint where
  value : Option GoFloat
  timestampMillis : Int
deriving DecidableEq, Repr

/-- The `snapshotData` struct of the snapshot package. -/
structure SnapEntry where
  Target : String
  Datapoints : List Datapoint
  Metric : Metric
deriving DecidableEq, Repr

/-- The per-sample mapping inside `fetchDataPointsPrometheus`:
`if math.IsNaN(value) { {nil, ts} } else { {value, ts} }`. -/
def samplePoint (sp : SamplePair) : Datapoint :=
  if goIsNaN sp.Value then { value := none, timestampMillis := sp.Timestamp }
  else { value := some sp.Value, timestampMillis := sp.Timestamp }

/-- Go float-to-integer conversion truncates toward zero. -/
def goTruncInt (q : ℚ) : Int := if 0 ≤ q then ⌊q⌋ else ⌈q⌉

/-- `time.Duration(step) * time.Second` in nanoseconds. -/
def stepDurationNs (step : ℚ) : Int := goTruncInt step * 1000000000

/-- The network boundary of `fetchDataPointsPrometheus`: the oracle maps
the proxied datasource id, the query expression and the step duration of
the `api.QueryRange` call to its result (or a transport/query error). -/
def PromOracle := Int → String → Int → Except String PromValue

/-- `SnapClient.fetchDataPointsPrometheus` with the HTTP call abstracted
into an oracle: issue the range query, insist on a matrix-shaped result,
and map every stream into a `snapshotData` entry whose datapoints are
`[value-or-nil, timestampMillis]` pairs.  `Target` is filled in by the
caller. -/
def fetchDataPointsPrometheus (oracle : PromOracle) (dsId : Int) (expr : String)
    (step : ℚ) : Except String (List SnapEntry) :=
  match oracle dsId expr (stepDurationNs step) with
  | .error e => .error e
  | .ok val =>
    match val with
    | .other tn => .error ("Unexpected value type: got " ++ tn ++ ", want matrix")
    | .matrix streams =>
      .ok (streams.map fun stream =>
        { Target := "",
          Datapoints := stream.Values.map samplePoint,
          Metric := stream.Metric })

/-- A concrete oracle whose single stream carries a `+Inf` sample. -/
def oracleInf : PromOracle := fun _ _ _ =>
  .ok (.matrix [{ Metric := [("__name__", "up")],
                  Values := [{ Timestamp := 1000, Value := .posInf }] }])

/-- Claim C7 counterexample: a `+Inf` sample value is not mapped to
null — only `math.IsNaN` is tested, so the infinities keep their
numeric encoding. -/
theorem c7_posinf_not_null :
    fetchDataPointsPrometheus oracleInf 1 "up" 30 =
      .ok [{ Target := "",
             Datapoints := [{ value := some GoFloat.posInf, timestampMillis := 1000 }],
             Metric := [("__name__", "up")] }] ∧
    some GoFloat.posInf ≠ (none : Option GoFloat) := by
  exact ⟨rfl, by simp⟩

/-- Claim C7 (amended): on a successful `fetchDataPointsPrometheus`
call, every sample of every returned stream maps to a
`[value-or-null, timestampMillis]` pair whose timestamp is the sample's
millisecond timestamp, whose value is null exactly when the sample is
NaN, and in which any non-NaN value — finite or infinite — keeps its
numeric encoding; the stream's label set is preserved. -/
theorem c7_datapoint_mapping :
    ∀ (oracle : PromOracle) (dsId : Int) (expr : String) (step : ℚ) (res : List SnapEntry),
      fetchDataPointsPrometheus oracle dsId expr step = .ok res →
      ∃ streams, oracle dsId expr (stepDurationNs step) = .ok (.matrix streams) ∧
        res.length = streams.length ∧
        ∀ i (hi : i < streams.length) (hr : i < res.length),
          (res.get ⟨i, hr⟩).Metric = (streams.get ⟨i, hi⟩).Metric ∧
          (res.get ⟨i, hr⟩).Datapoints.length = (streams.get ⟨i, hi⟩).Values.length ∧
          ∀ j (hj : j < (streams.get ⟨i, hi⟩).Values.length)
            (hd : j < (res.get ⟨i, hr⟩).Datapoints.length),
            ((res.get ⟨i, hr⟩).Datapoints.get ⟨j, hd⟩).timestampMillis =
              ((streams.get ⟨i, hi⟩).Values.get ⟨j, hj⟩).Timestamp ∧
            (((res.get ⟨i, hr⟩).Datapoints.get ⟨j, hd⟩).value = none ↔
              ((streams.get ⟨i, hi⟩).Values.get ⟨j, hj⟩).Value = GoFloat.nan) ∧
            (((streams.get ⟨i, hi⟩).Values.get ⟨j, hj⟩).Value ≠ GoFloat.nan →
              ((res.get ⟨i, hr⟩).Datapoints.get ⟨j, hd⟩).value =
                some ((streams.get ⟨i, hi⟩).Values.get ⟨j, hj⟩).Value) := by
  intro oracle dsId expr step res h
  unfold fetchDataPointsPrometheus at h
  cases ho : oracle dsId expr (stepDurationNs step) with
  | error e => rw [ho] at h; exact absurd h (by simp)
  | ok val =>
    rw [ho] at h
    cases val with
    | other tn => simp at h
    | matrix streams =>
      simp only [Except.ok.injEq] at h
      subst h
      refine ⟨streams, rfl, by simp, ?_⟩
      intro i hi hr
      rw [List.get_map]
      refine ⟨rfl, by simp, ?_⟩
      intro j hj hd
      have hdp : ((streams.get ⟨i, hi⟩).Values.map samplePoint).get
          ⟨j, by simpa using hj⟩ = samplePoint ((streams.get ⟨i, hi⟩).Values.get ⟨j, hj⟩) :=
        List.get_map _
      simp only at hd ⊢
      rw [show (⟨j, hd⟩ : Fin _) = ⟨j, by simpa using hj⟩ from rfl, hdp]
      unfold samplePoint
      set sp := (streams.get ⟨i, hi⟩).Values.get ⟨j, hj⟩ with hsp
      by_cases hnan : goIsNaN sp.Value = true
      · rw [if_pos hnan]
        have hv : sp.Value = GoFloat.nan := by
          cases hc : sp.Value <;> rw [hc] at hnan <;> first | rfl | exact absurd hnan (by simp [goIsNaN])
        refine ⟨rfl, by simp [hv], fun hne => absurd hv hne⟩
      · rw [if_neg hnan]
        have hv : sp.Value ≠ GoFloat.nan := by
          intro hc
          rw [hc] at hnan
          exact hnan rfl
        exact ⟨rfl, by simp [hv], fun _ => rfl⟩

/-- Witness for C7's amended theorem at a concrete three-sample stream
(one NaN, one finite, one `-Inf` sample). -/
theorem c7_datapoint_mapping_witness :
    ∃ streams,
      (fun (_ : Int) (_ : String) (_ : Int) =>
          (.ok (.matrix [{ Metric := [("job", "node")],
                           Values := [{ Timestamp := 0, Value := .nan },
                                      { Timestamp := 1, Value := .finite 5 },
                                      { Timestamp := 2, Value := .negInf }] }])
            : Except String PromValue)) 7 "up" (stepDurationNs 30) = .ok (.matrix streams) ∧
      ([{ Target := "",
          Datapoints := [{ value := none, timestampMillis := 0 },
                         { value := some (GoFloat.finite 5), timestampMillis := 1 },
                         { value := some GoFloat.negInf, timestampMillis := 2 }],
          Metric := [("job", "node")] }] : List SnapEntry).length = streams.length := by
  have h := c7_datapoint_mapping
    (fun _ _ _ => .ok (.matrix [{ Metric := [("job", "node")],
                                  Values := [{ Timestamp := 0, Value := .nan },
                                             { Timestamp := 1, Value := .finite 5 },
                                             { Timestamp := 2, Value := .negInf }] }]))
    7 "up" 30
    [{ Target := "",
       Datapoints := [{ value := none, timestampMillis := 0 },
                      { value := some (GoFloat.finite 5), timestampMillis := 1 },
                      { value := some GoFloat.negInf, timestampMillis := 2 }],
       Metric := [("job", "node")] }]
    rfl
  obtain ⟨streams, h1, h2, -⟩ := h
  exact ⟨streams, h1, h2⟩

/-! ### Legend rendering (`renderTemplate`, `model.Metric.String`) -/

/-- The opening curly brace (kept out of string literals). -/
def lbrace : Char := Char.ofNat 123

/-- The closing curly brace (kept out of string literals). -/
def rbrace : Char := Char.ofNat 125

/-- One label rendered as `fmt.Sprintf("%s=%q", label, value)` (the
label values on these dashboards need no quote-escaping). -/
def labelPair (kv : String × String) : String := kv.1 ++ "=\"" ++ kv.2 ++ "\""

/-- Insertion into a sorted list of strings. -/
def insertSorted (x : String) : List String → List String
  | [] => [x]
  | y :: rest => if x ≤ y then x :: y :: rest else y :: insertSorted x rest

/-- Go `sort.Strings` (insertion sort; the code only needs sortedness). -/
def sortStrings (l : List String) : List String := l.foldr insertSorted []

/-- Go `strings.Join l ", "`. -/
def joinComma : List String → String
  | [] => ""
  | [x] => x
  | x :: y :: rest => x ++ ", " ++ joinComma (y :: rest)

/-- `model.Metric.String()`: the `__name__` label (if any) followed by
the remaining labels sorted and rendered `name="value"` inside braces;
a bare name when there are no other labels, and bare braces for the
empty label set. -/
def metricString (m : Metric) : String :=
  let metricName := (m.lookup "__name__").getD ""
  let labelStrings := sortStrings ((m.filter (fun kv => kv.1 != "__name__")).map labelPair)
  match labelStrings with
  | [] =>
    if (m.lookup "__name__").isSome then metricName
    else ⟨[lbrace, rbrace]⟩
  | _ => metricName ++ ⟨[lbrace]⟩ ++ joinComma labelStrings ++ ⟨[rbrace]⟩

/-- Strip whitespace from both ends. -/
def trimWS (l : List Char) : List Char :=
  ((l.dropWhile (·.isWhitespace)).reverse.dropWhile (·.isWhitespace)).reverse

/-- Find the first `\x7d\x7d` (two closing braces) and split the text
there: `(content-before, rest-after)`. -/
def findClose : List Char → Option (List Char × List Char)
  | [] => none
  | c :: rest =>
    if c = rbrace ∧ rest.head? = some rbrace then some ([], rest.tail)
    else
      match findClose rest with
      | none => none
      | some (content, after) => some (c :: content, after)

/-- Worker for `renderTemplate`: scan for `\x7b\x7b...\x7d\x7d` alias
placeholders (the regex match needs at least one character between the
braces), replace each by the named label's value (empty when absent).
The fuel (instantiated with the text length, always sufficient) only
makes the recursion structural. -/
def renderScanFuel (m : Metric) : Nat → List Char → List Char
  | 0, s => s
  | _ + 1, [] => []
  | fuel + 1, c :: rest =>
    if c = lbrace ∧ rest.head? = some lbrace then
      match findClose rest.tail with
      | none => c :: renderScanFuel m fuel rest
      | some (content, after) =>
        if content = [] then c :: renderScanFuel m fuel rest
        else ((m.lookup ⟨trimWS content⟩).getD "").data ++ renderScanFuel m fuel after
    else c :: renderScanFuel m fuel rest

/-- `renderTemplate`: the re-implementation of Grafana's alias
rendering, substituting label values for the placeholders matched by
the alias regular expression. -/
def renderTemplate (format : String) (metric : Metric) : String :=
  ⟨renderScanFuel metric format.data.length format.data⟩

/-! ### The panel traversal of `SnapClient.Take` (second revision) -/

/-- The `datasource` field of a panel: absent, JSON null, a datasource
name, or the empty array the transformer writes back. -/
inductive DSRef where
  | absent
  | nullv
  | name (s : String)
  | cleared
deriving DecidableEq, Repr

/-- One datasource descriptor (`id`, `type`) from `api/datasources`. -/
structure GoDatasource where
  id : Int
  type : String
deriving DecidableEq, Repr

/-- A panel, restricted to the fields the transformer touches.  `links`
is `none` when absent; `snapshotData` is absent before the transform. -/
structure GoPanel where
  datasource : DSRef
  targets : List GoTarget
  links : Option (List String)
  snapshotData : Option (List SnapEntry)
deriving DecidableEq, Repr

/-- Outcome of the traversal: success, a returned error, or a Go
runtime panic from an unchecked type assertion. -/
inductive TakeOutcome (α : Type) where
  | ok (a : α)
  | err (e : String)
  | crash (msg : String)
deriving DecidableEq, Repr

/-- The `^[[key]]$` rewriting the second revision applies to a target's
query expression: for each extracted template variable, when the query
contains `^[[key]]$` it is replaced by `^.*$` if the current value is
`All` and by the value otherwise.  Go map iteration is modelled by the
list order. -/
def applyQueryTemplates (qts : List (String × String)) (q : String) : String :=
  qts.foldl (fun acc kv =>
    if goContains acc ("^[[" ++ kv.1 ++ "]]$") = true then
      if kv.2 = "All" then goReplace acc ("^[[" ++ kv.1 ++ "]]$") "^.*$"
      else goReplace acc ("^[[" ++ kv.1 ++ "]]$") kv.2
    else acc) q

/-- The per-series label: `legendFormat` rendered against the label set
when set and non-empty, else the label set's canonical string. -/
def targetLabel (t : GoTarget) (m : Metric) : String :=
  match t.legendFormat with
  | some f => if f ≠ "" then renderTemplate f m else metricString m
  | none => metricString m

/-- The per-target loop of `Take` (second revision): compute the step,
look the datasource up (a name missing from the datasource map is an
unchecked nil type assertion, i.e. a runtime panic), rewrite the query,
dispatch on the datasource type (the elasticsearch stub returns no data
and no error; other types are skipped by `continue`), and on success
append the labelled series to the panel-scoped accumulator and blank
the panel's live-query fields.  `acc` models the accumulated
`snapshotData` variable and `panelState` the panel as mutated so far;
the loop walks the original target list. -/
def processTargets (dsMap : List (String × GoDatasource)) (qts : List (String × String))
    (oracle : PromOracle) (dsName : String) :
    List SnapEntry → GoPanel → List GoTarget → TakeOutcome GoPanel
  | _, panelState, [] => .ok panelState
  | acc, panelState, t :: rest =>
    match snapTargetStep t with
    | .error e => .err e
    | .ok step =>
      match dsMap.lookup dsName with
      | none => .crash "interface conversion: interface nil is not a datasource object"
      | some ds =>
        let actualQuery := applyQueryTemplates qts t.expr
        if ds.type = "prometheus" then
          match fetchDataPointsPrometheus oracle ds.id actualQuery step with
          | .error e => .err e
          | .ok dps =>
            let entries := dps.map fun dp => { dp with Target := targetLabel t dp.Metric }
            processTargets dsMap qts oracle dsName (acc ++ entries)
              { panelState with snapshotData := some (acc ++ entries), targets := [],
                                links := some [], datasource := .cleared } rest
        else if ds.type = "elasticsearch" then
          processTargets dsMap qts oracle dsName acc
            { panelState with snapshotData := some acc, targets := [],
                              links := some [], datasource := .cleared } rest
        else
          processTargets dsMap qts oracle dsName acc panelState rest

/-- The per-panel step of `Take` (second revision): panels whose
`datasource` field is absent or null are skipped (`datasource_ok`
check); any other non-string value would hit the `.(string)` assertion;
a named datasource runs the target loop with an empty accumulator. -/
def processPanel (dsMap : List (String × GoDatasource)) (qts : List (String × String))
    (oracle : PromOracle) (p : GoPanel) : TakeOutcome GoPanel :=
  match p.datasource with
  | .absent => .ok p
  | .nullv => .ok p
  | .cleared => .crash "interface conversion: interface is not a string"
  | .name n => processTargets dsMap qts oracle n [] p p.targets

/-- The panel loop of `Take` (second revision): panels are processed in
order and any error or panic aborts the whole traversal. -/
def processPanels (dsMap : List (String × GoDatasource)) (qts : List (String × String))
    (oracle : PromOracle) : List GoPanel → TakeOutcome (List GoPanel)
  | [] => .ok []
  | p :: rest =>
    match processPanel dsMap qts oracle p with
    | .ok p' =>
      match processPanels dsMap qts oracle rest with
      | .ok l => .ok (p' :: l)
      | .err e => .err e
      | .crash m => .crash m
    | .err e => .err e
    | .crash m => .crash m

/-- The series entries one target contributes, recomputed for the
statements below: the labelled prometheus result; nothing for the
elasticsearch stub, unsupported types, unresolved datasources or failed
calls. -/
def targetEntries (dsMap : List (String × GoDatasource)) (qts : List (String × String))
    (oracle : PromOracle) (dsName : String) (t : GoTarget) : List SnapEntry :=
  match snapTargetStep t with
  | .error _ => []
  | .ok step =>
    match dsMap.lookup dsName with
    | none => []
    | some ds =>
      if ds.type = "prometheus" then
        match fetchDataPointsPrometheus oracle ds.id (applyQueryTemplates qts t.expr) step with
        | .error _ => []
        | .ok dps => dps.map fun dp => { dp with Target := targetLabel t dp.Metric }
      else []

theorem processTargets_ok (dsMap : List (String × GoDatasource)) (qts : List (String × String))
    (oracle : PromOracle) (dsName : String) (ds : GoDatasource)
    (hds : dsMap.lookup dsName = some ds)
    (hsupp : ds.type = "prometheus" ∨ ds.type = "elasticsearch") :
    ∀ (ts : List GoTarget) (acc : List SnapEntry) (panelState out : GoPanel),
      processTargets dsMap qts oracle dsName acc panelState ts = .ok out →
      (ts = [] → out = panelState) ∧
      (ts ≠ [] →
        out.targets = [] ∧ out.links = some [] ∧ out.datasource = .cleared ∧
        out.snapshotData =
          some (acc ++ ts.flatMap (targetEntries dsMap qts oracle dsName))) := by
  intro ts
  induction ts with
  | nil =>
    intro acc panelState out h
    unfold processTargets at h
    simp only [TakeOutcome.ok.injEq] at h
    exact ⟨fun _ => h.symm, fun hne => absurd rfl hne⟩
  | cons t rest ih =>
    intro acc panelState out h
    refine ⟨fun hc => absurd hc (by simp), fun _ => ?_⟩
    unfold processTargets at h
    cases hstep : snapTargetStep t with
    | error e => rw [hstep] at h; exact absurd h (by simp)
    | ok step =>
      rw [hstep] at h
      simp only at h
      rw [hds] at h
      simp only at h
      rcases hsupp with htyp | htyp
      · rw [if_pos htyp] at h
        cases hfetch : fetchDataPointsPrometheus oracle ds.id
            (applyQueryTemplates qts t.expr) step with
        | error e => rw [hfetch] at h; exact absurd h (by simp)
        | ok dps =>
          rw [hfetch] at h
          simp only at h
          have hentry : targetEntries dsMap qts oracle dsName t =
              dps.map (fun dp => { dp with Target := targetLabel t dp.Metric }) := by
            unfold targetEntries
            rw [hstep]
            simp only
            rw [hds]
            simp only
            rw [if_pos htyp, hfetch]
          have hrec := ih _ _ _ h
          by_cases hrest : rest = []
          · subst hrest
            have hout := hrec.1 rfl
            subst hout
            refine ⟨rfl, rfl, rfl, ?_⟩
            simp [hentry]
          · have hout := hrec.2 hrest
            refine ⟨hout.1, hout.2.1, hout.2.2.1, ?_⟩
            rw [hout.2.2.2]
            simp [hentry, List.append_assoc]
      · rw [htyp] at h
        rw [if_neg (by decide), if_pos rfl] at h
        have hentry : targetEntries dsMap qts oracle dsName t = [] := by
          unfold targetEntries
          rw [hstep]
          simp only
          rw [hds]
          simp only
          rw [if_neg (by rw [htyp]; decide)]
        have hrec := ih _ _ _ h
        by_cases hrest : rest = []
        · subst hrest
          have hout := hrec.1 rfl
          subst hout
          refine ⟨rfl, rfl, rfl, ?_⟩
          simp [hentry]
        · have hout := hrec.2 hrest
          refine ⟨hout.1, hout.2.1, hout.2.2.1, ?_⟩
          rw [hout.2.2.2]
          simp [hentry]

/-- The per-panel postcondition the amended claim C1 asserts: when the
panel names a datasource that resolves to a supported backend and the
panel has at least one target, the transformed panel is stripped and
carries exactly the series returned across all its targets, in order. -/
def PanelTransformed (dsMap : List (String × GoDatasource)) (qts : List (String × String))
    (oracle : PromOracle) (p q : GoPanel) : Prop :=
  ∀ n ds, p.datasource = .name n → dsMap.lookup n = some ds →
    (ds.type = "prometheus" ∨ ds.type = "elasticsearch") → p.targets ≠ [] →
    q.targets = [] ∧ q.links = some [] ∧ q.datasource = .cleared ∧
    q.snapshotData = some (p.targets.flatMap (targetEntries dsMap qts oracle n))

/-- Claim C1 (amended): after a successful traversal, every panel whose
datasource resolves to a supported backend and that has at least one
target has `snapshotData` set to one entry per series returned across
all of that panel's targets (in target order) and its `targets`,
`links` and `datasource` fields each set to the empty list.  A
supported-datasource panel with no targets is left untouched (the
counterexample), so the claim holds only under the added
at-least-one-target hypothesis. -/
theorem c1_supported_panel_stripped :
    ∀ (dsMap : List (String × GoDatasource)) (qts : List (String × String))
      (oracle : PromOracle) (panels result : List GoPanel),
      processPanels dsMap qts oracle panels = .ok result →
      List.Forall₂ (PanelTransformed dsMap qts oracle) panels result := by
  intro dsMap qts oracle panels
  induction panels with
  | nil =>
    intro result h
    unfold processPanels at h
    simp only [TakeOutcome.ok.injEq] at h
    subst h
    exact List.Forall₂.nil
  | cons p rest ih =>
    intro result h
    unfold processPanels at h
    cases hp : processPanel dsMap qts oracle p with
    | err e => rw [hp] at h; exact absurd h (by simp)
    | crash m => rw [hp] at h; exact absurd h (by simp)
    | ok p' =>
      rw [hp] at h
      simp only at h
      cases hrest : processPanels dsMap qts oracle rest with
      | err e => rw [hrest] at h; exact absurd h (by simp)
      | crash m => rw [hrest] at h; exact absurd h (by simp)
      | ok l =>
        rw [hrest] at h
        simp only [TakeOutcome.ok.injEq] at h
        subst h
        refine List.Forall₂.cons ?_ (ih l hrest)
        intro n ds hname hlook hsupp htne
        unfold processPanel at hp
        rw [hname] at hp
        simp only at hp
        exact (processTargets_ok dsMap qts oracle n ds hlook hsupp p.targets [] p p' hp).2 htne

/-- A one-target prometheus query target. -/
def upTarget : GoTarget :=
  { expr := "up", interval := none, intervalFactor := none, legendFormat := none }

/-- An oracle returning a one-series matrix with a single sample. -/
def oracleOneSeries : PromOracle := fun _ _ _ =>
  .ok (.matrix [{ Metric := [("__name__", "up")],
                  Values := [{ Timestamp := 0, Value := .finite 1 }] }])

/-- Claim C1 counterexample: a panel whose datasource resolves to a
supported backend but which has no targets is left completely untouched
by a successful traversal: its `snapshotData` stays absent and its
`datasource` field is not blanked to the empty list, contradicting the
claim's universal statement. -/
theorem c1_zero_target_panel_untouched :
    processPanels [("ds1", { id := 1, type := "prometheus" })] [] oracleOneSeries
        [{ datasource := .name "ds1", targets := [], links := none, snapshotData := none }] =
      .ok [{ datasource := .name "ds1", targets := [], links := none, snapshotData := none }] ∧
    ({ datasource := .name "ds1", targets := [], links := none,
       snapshotData := none } : GoPanel).snapshotData = none ∧
    ({ datasource := .name "ds1", targets := [], links := none,
       snapshotData := none } : GoPanel).datasource ≠ DSRef.cleared := by
  refine ⟨rfl, rfl, by simp⟩

/-- Witness for C1's amended theorem at the spec's end-to-end instance:
one panel, one prometheus target against datasource `ds1`, one-series
matrix result — the final panel carries exactly one snapshotData entry
and empty `targets` and `datasource`. -/
theorem c1_supported_panel_stripped_witness :
    ∃ q : GoPanel,
      processPanels [("ds1", { id := 1, type := "prometheus" })] [] oracleOneSeries
          [{ datasource := .name "ds1", targets := [upTarget], links := none,
             snapshotData := none }] = .ok [q] ∧
      q.targets = [] ∧ q.datasource = DSRef.cleared ∧
      ∃ entries, q.snapshotData = some entries ∧ entries.length = 1 := by
  have hrun : processPanels [("ds1", { id := 1, type := "prometheus" })] [] oracleOneSeries
      [{ datasource := .name "ds1", targets := [upTarget], links := none,
         snapshotData := none }] =
      .ok [{ datasource := .cleared, targets := [], links := some [],
             snapshotData := some [{ Target := "up",
                                     Datapoints := [{ value := some (.finite 1),
                                                      timestampMillis := 0 }],
                                     Metric := [("__name__", "up")] }] }] := rfl
  have hall := c1_supported_panel_stripped _ _ _ _ _ hrun
  have hpq : PanelTransformed [("ds1", { id := 1, type := "prometheus" })] [] oracleOneSeries
      { datasource := .name "ds1", targets := [upTarget], links := none, snapshotData := none }
      { datasource := .cleared, targets := [], links := some [],
        snapshotData := some [{ Target := "up",
                                Datapoints := [{ value := some (.finite 1),
                                                 timestampMillis := 0 }],
                                Metric := [("__name__", "up")] }] } := by
    cases hall with
    | cons h1 _ => exact h1
  have hq := hpq "ds1" { id := 1, type := "prometheus" } rfl rfl (Or.inl rfl) (by simp)
  exact ⟨_, hrun, hq.1, hq.2.2.1, _, hq.2.2.2, rfl⟩

/-- Claim C8 counterexample: a panel naming a datasource that the
datasource-list fetch did not return is not skipped: with at least one
target the traversal hits the nil type assertion on the datasource-map
lookup and panics instead of continuing. -/
theorem c8_unknown_datasource_crashes :
    processPanels [("ds1", { id := 1, type := "prometheus" })] [] oracleOneSeries
        [{ datasource := .name "nope", targets := [upTarget], links := none,
           snapshotData := none }] =
      .crash "interface conversion: interface nil is not a datasource object" := by
  rfl

/-- Claim C8 (amended): panels whose `datasource` field is absent or
null are skipped without error — they pass through unchanged and the
traversal of the remaining panels continues exactly as without them.
Panels naming a datasource that the fetch did not return are not
skipped: with at least one target they panic on the nil type assertion
(the counterexample). -/
theorem c8_missing_datasource_skipped :
    ∀ (dsMap : List (String × GoDatasource)) (qts : List (String × String))
      (oracle : PromOracle) (p : GoPanel) (rest : List GoPanel),
      (p.datasource = DSRef.absent ∨ p.datasource = DSRef.nullv) →
      processPanels dsMap qts oracle (p :: rest) =
        (match processPanels dsMap qts oracle rest with
         | .ok l => .ok (p :: l)
         | .err e => .err e
         | .crash m => .crash m) := by
  intro dsMap qts oracle p rest hds
  have hp : processPanel dsMap qts oracle p = .ok p := by
    unfold processPanel
    rcases hds with hds | hds <;> rw [hds]
  cases hrest : processPanels dsMap qts oracle rest with
  | ok l => simp only [processPanels]; rw [hp, hrest]
  | err e => simp only [processPanels]; rw [hp, hrest]
  | crash m => simp only [processPanels]; rw [hp, hrest]

/-- Witness for C8's amended theorem: an absent-datasource panel ahead
of no other panels passes through unchanged. -/
theorem c8_missing_datasource_skipped_witness :
    processPanels [("ds1", { id := 1, type := "prometheus" })] [] oracleOneSeries
        [{ datasource := .absent, targets := [upTarget], links := none,
           snapshotData := none }] =
      .ok [{ datasource := .absent, targets := [upTarget], links := none,
             snapshotData := none }] := by
  rw [c8_missing_datasource_skipped _ _ _ _ _ (Or.inl rfl)]
  rfl

end snapshot
